import Mathlib

/-!
Verification of the checkpipe library: a transparent I/O decorator (`Checker`)
that feeds every confirmed-transferred byte range into a pluggable accumulator
(the `Check` trait), together with the byte-counting accumulator `InnerCounter`.

Modelling conventions:
* bytes are `Nat`, buffers are `List Nat`;
* `usize` arithmetic is `Nat` reduced modulo `2 ^ 64` (`USIZE`);
* a Rust method on `&mut self` is a Lean function returning the new state;
* the inner I/O handle is an abstract state type `T` together with explicit
  read/write/flush functions passed as parameters; each returns its result
  (`Except ε _`) paired with the new handle state, because a Rust handle can
  mutate itself even when it returns an error;
* the slice expression `&buf[..n]` is `sliceTo buf n : Option (List Nat)`,
  where `none` models the panic when `n` exceeds the buffer length, so the
  decorator's read/write return `Option (result)`, `none` meaning a panic.
-/

namespace Checkpipe

/-- Modulus of the 64-bit `usize` machine word. -/
def USIZE : Nat := 2 ^ 64

theorem USIZE_pos : 0 < USIZE := by unfold USIZE; positivity

/-- Embedding of the `Check` trait: `update` incorporates a chunk of bytes
into the accumulator state `C`, `output` reads out the current result of
type `O`. -/
structure Check (C : Type) (O : Type) where
  update : C → List Nat → C
  output : C → O

/-- State of `InnerCounter`: its single `usize` field (`pub struct
InnerCounter(usize)`), values kept in `[0, USIZE)`. -/
abbrev InnerCounter : Type := Nat

/-- Embeds `#[derive(Default)]`: the default `usize` is `0`. -/
def InnerCounter.default : InnerCounter := (0 : Nat)

/-- Embeds `fn update(&mut self, buf: &[u8]) { self.0 += buf.len(); }` with
`usize` wrap-around. -/
def InnerCounter.update (s : InnerCounter) (buf : List Nat) : InnerCounter :=
  (s + buf.length) % USIZE

/-- Embeds `fn output(&self) -> usize { self.0 }`. -/
def InnerCounter.output (s : InnerCounter) : Nat := s

/-- Embeds `fn output(&self)` in state-passing form: the receiver is taken by
immutable borrow, so the call hands back the accumulator state unchanged. -/
def InnerCounter.outputS (s : InnerCounter) : Nat × InnerCounter :=
  (InnerCounter.output s, s)

/-- The `Check` instance for `InnerCounter` (`impl Check for InnerCounter`). -/
def InnerCounter.check : Check InnerCounter Nat :=
  ⟨InnerCounter.update, InnerCounter.output⟩

/-- Embeds `pub struct Checker<C: Check, T> { checker: C, inner: T }`. -/
structure Checker (C : Type) (T : Type) where
  checker : C
  inner : T
deriving DecidableEq

variable {C T O ε : Type}

/-- Embeds `Checker::new(checker, inner)`. -/
def Checker.new (checker : C) (inner : T) : Checker C T :=
  ⟨checker, inner⟩

/-- Embeds `replace_checker(&mut self, new: C) -> C`
(`std::mem::replace(&mut self.checker, new)`): returns the old accumulator
and the updated decorator state. -/
def Checker.replace_checker (ck : Checker C T) (new : C) : C × Checker C T :=
  (ck.checker, ⟨new, ck.inner⟩)

/-- Embeds `replace_inner(&mut self, inner: T) -> T`. -/
def Checker.replace_inner (ck : Checker C T) (inner : T) : T × Checker C T :=
  (ck.inner, ⟨ck.checker, inner⟩)

/-- Embeds `into_parts(self) -> (C, T)`. -/
def Checker.into_parts (ck : Checker C T) : C × T :=
  (ck.checker, ck.inner)

/-- Embeds `fn output(&self) -> C::Output { self.checker.output() }`, with the
`Check` instance passed explicitly. -/
def Checker.output (chk : Check C O) (ck : Checker C T) : O :=
  chk.output ck.checker

/-- Embeds `Checker::output` in state-passing form: `&self` hands the
decorator state back unchanged. -/
def Checker.outputS (chk : Check C O) (ck : Checker C T) : O × Checker C T :=
  (Checker.output chk ck, ck)

/-- Embeds the slice expression `&buf[..n]`: `none` models the panic raised
when `n` exceeds the buffer length. -/
def sliceTo (buf : List Nat) (n : Nat) : Option (List Nat) :=
  if n ≤ buf.length then some (buf.take n) else none

/-- Embeds `impl Read for Checker`:
`let out = self.inner.read(buf)?; self.checker.update(&buf[..out]); Ok(out)`.
`innerRead` returns `((result, buffer contents after the call), new handle
state)`. The decorator's result carries the final buffer contents and the new
decorator state; `none` is a panic from the `buf[..out]` slice. -/
def Checker.read (chk : Check C O)
    (innerRead : T → List Nat → (Except ε Nat × List Nat) × T)
    (ck : Checker C T) (buf : List Nat) :
    Option ((Except ε Nat × List Nat) × Checker C T) :=
  let r := innerRead ck.inner buf
  match r.1.1 with
  | Except.error e => some ((Except.error e, r.1.2), Checker.new ck.checker r.2)
  | Except.ok n =>
    match sliceTo r.1.2 n with
    | none => none
    | some s => some ((Except.ok n, r.1.2), Checker.new (chk.update ck.checker s) r.2)

/-- Embeds `impl Write for Checker`'s `write`:
`let out = self.inner.write(buf)?; self.checker.update(&buf[..out]); Ok(out)`. -/
def Checker.write (chk : Check C O)
    (innerWrite : T → List Nat → Except ε Nat × T)
    (ck : Checker C T) (buf : List Nat) :
    Option (Except ε Nat × Checker C T) :=
  let r := innerWrite ck.inner buf
  match r.1 with
  | Except.error e => some (Except.error e, Checker.new ck.checker r.2)
  | Except.ok n =>
    match sliceTo buf n with
    | none => none
    | some s => some (Except.ok n, Checker.new (chk.update ck.checker s) r.2)

/-- Embeds `fn flush(&mut self) { self.inner.flush() }`: forwards to the inner
handle, never touching the accumulator. -/
def Checker.flush (innerFlush : T → Except ε Unit × T) (ck : Checker C T) :
    Except ε Unit × Checker C T :=
  ((innerFlush ck.inner).1, ⟨ck.checker, (innerFlush ck.inner).2⟩)

/-- An in-memory sink inner writer that accepts every byte of every chunk
(the inner handle of the spec's example scenario). -/
def sinkWrite : Unit → List Nat → Except Unit Nat × Unit :=
  fun s buf => (Except.ok buf.length, s)

/-- Drives a sequence of whole-chunk writes through a decorator; `none` if
any write panics or errors. -/
def writeChunks (chk : Check C O) (innerWrite : T → List Nat → Except ε Nat × T) :
    Checker C T → List (List Nat) → Option (Checker C T)
  | ck, [] => some ck
  | ck, buf :: rest =>
    match Checker.write chk innerWrite ck buf with
    | some (Except.ok _, ck') => writeChunks chk innerWrite ck' rest
    | _ => none

/-- A misbehaving inner reader that reports more bytes transferred than the
buffer holds. -/
def badRead : Unit → List Nat → (Except Unit Nat × List Nat) × Unit :=
  fun s _b => ((Except.ok 5, []), s)

/-- A misbehaving inner writer that reports more bytes accepted than it was
given. -/
def badWrite : Unit → List Nat → Except Unit Nat × Unit :=
  fun s _b => (Except.ok 5, s)

theorem foldl_update (chunks : List (List Nat)) (s : Nat) (h : s < USIZE) :
    chunks.foldl InnerCounter.update s
      = (s + (chunks.map List.length).sum) % USIZE := by
  induction chunks generalizing s with
  | nil => simp [Nat.mod_eq_of_lt h]
  | cons c cs ih =>
    have hlt : InnerCounter.update s c < USIZE :=
      Nat.mod_lt _ USIZE_pos
    rw [List.foldl_cons, ih _ hlt]
    simp only [InnerCounter.update, List.map_cons, List.sum_cons, Nat.mod_add_mod]
    ring_nf

/-- C1: Chunking independence of the accumulator: for any byte sequence and
any ordered partition of it into chunks, feeding the chunks via successive
`update` calls to a freshly-initialized `InnerCounter` (its default, zero
state) produces the same `output()` as feeding the whole sequence as a
single chunk. -/
theorem chunking_independence (chunks : List (List Nat)) :
    InnerCounter.output (chunks.foldl InnerCounter.update InnerCounter.default)
      = InnerCounter.output
          (InnerCounter.update InnerCounter.default chunks.flatten) := by
  rw [foldl_update chunks InnerCounter.default USIZE_pos]
  simp [InnerCounter.output, InnerCounter.update, InnerCounter.default,
    List.length_flatten]

theorem sink_write_step (s : Nat) (buf : List Nat) :
    Checker.write InnerCounter.check sinkWrite (Checker.new s ()) buf
      = some (Except.ok buf.length,
          Checker.new ((s + buf.length) % USIZE) ()) := by
  simp [Checker.write, sinkWrite, sliceTo, Checker.new, InnerCounter.check,
    InnerCounter.update]

theorem writeChunks_sink (chunks : List (List Nat)) (s : Nat) (h : s < USIZE) :
    writeChunks InnerCounter.check sinkWrite (Checker.new s ()) chunks
      = some (Checker.new ((s + (chunks.map List.length).sum) % USIZE) ()) := by
  induction chunks generalizing s with
  | nil => simp [writeChunks, Nat.mod_eq_of_lt h]
  | cons c cs ih =>
    rw [writeChunks, sink_write_step]
    show writeChunks InnerCounter.check sinkWrite
        (Checker.new ((s + c.length) % USIZE) ()) cs = _
    rw [ih _ (Nat.mod_lt _ USIZE_pos)]
    simp only [List.map_cons, List.sum_cons, Nat.mod_add_mod]
    ring_nf

/-- C2 counterexample: pushing `2 ^ 64` bytes through a `Counter` decorator
over a sink in a single confirmed write yields `output() = 0`, not the number
of bytes transferred, because the `usize` total wraps. -/
theorem byte_count_overflow :
    (Checker.write InnerCounter.check sinkWrite
        (Checker.new InnerCounter.default ()) (List.replicate USIZE 0)).map
        (fun r => Checker.output InnerCounter.check r.2)
      = some 0 ∧ (0 : Nat) ≠ USIZE := by
  constructor
  · rw [show InnerCounter.default = (0 : Nat) from rfl, sink_write_step]
    simp [Checker.output, Checker.new, InnerCounter.check, InnerCounter.output,
      List.length_replicate, Nat.mod_self]
  · have := USIZE_pos
    omega

/-- C2 (amended): the byte-count accumulator's `update` adds the chunk's
length to its `usize` total, `output` returns the total unchanged, the
default state is zero; consequently, after a total of `N` bytes with
`N < 2 ^ 64` have been confirmed transferred through a decorator wrapping
the byte-count accumulator, in any chunking, `output()` equals `N`. -/
theorem byte_count_correct (chunks : List (List Nat))
    (h : (chunks.map List.length).sum < USIZE) :
    (writeChunks InnerCounter.check sinkWrite
        (Checker.new InnerCounter.default ()) chunks).map
        (Checker.output InnerCounter.check)
      = some ((chunks.map List.length).sum) := by
  rw [writeChunks_sink chunks InnerCounter.default USIZE_pos]
  simp [Checker.output, Checker.new, InnerCounter.check, InnerCounter.output,
    InnerCounter.default, Nat.mod_eq_of_lt h]

/-- C2 witness: writing the chunks `[1, 2]` then `[3]` (3 bytes in total,
which is below `2 ^ 64`) through a counter decorator over a sink yields
`output() = 3`. -/
theorem byte_count_correct_witness :
    (([[1, 2], [3]] : List (List Nat)).map List.length).sum < USIZE ∧
    (writeChunks InnerCounter.check sinkWrite
        (Checker.new InnerCounter.default ()) [[1, 2], [3]]).map
        (Checker.output InnerCounter.check)
      = some 3 :=
  ⟨by decide, byte_count_correct [[1, 2], [3]] (by decide)⟩

/-- C3: Partial-transfer fidelity: when the inner handle's read (resp. write)
succeeds reporting `n` (resp. `m`) bytes transferred and that count is within
the buffer, the decorator feeds exactly the first `n` (resp. `m`) bytes of
the buffer to the accumulator's `update` — the confirmed sub-range, not the
requested length — and returns the same success value unchanged. -/
theorem partial_transfer_fidelity (chk : Check C O)
    (innerRead : T → List Nat → (Except ε Nat × List Nat) × T)
    (innerWrite : T → List Nat → Except ε Nat × T)
    (ck : Checker C T) (buf buf' : List Nat) (n m : Nat) (t t' : T)
    (hr : innerRead ck.inner buf = ((Except.ok n, buf'), t))
    (hn : n ≤ buf'.length)
    (hw : innerWrite ck.inner buf = (Except.ok m, t'))
    (hm : m ≤ buf.length) :
    Checker.read chk innerRead ck buf
      = some ((Except.ok n, buf'),
          Checker.new (chk.update ck.checker (buf'.take n)) t) ∧
    Checker.write chk innerWrite ck buf
      = some (Except.ok m,
          Checker.new (chk.update ck.checker (buf.take m)) t') := by
  constructor
  · simp [Checker.read, hr, sliceTo, hn]
  · simp [Checker.write, hw, sliceTo, hm]

/-- An inner reader that always succeeds, reporting 2 bytes and leaving
`[9, 8, 7]` in the buffer. -/
def okRead : Unit → List Nat → (Except Unit Nat × List Nat) × Unit :=
  fun s _b => ((Except.ok 2, [9, 8, 7]), s)

/-- An inner writer that always accepts exactly 1 byte. -/
def okWrite : Unit → List Nat → Except Unit Nat × Unit :=
  fun s _b => (Except.ok 1, s)

/-- C3 witness: with a counter decorator over concrete short-transferring
handles, a read confirming 2 bytes and a write confirming 1 byte of the
3-byte buffer `[5, 6, 7]` update the accumulator with exactly the confirmed
prefixes and return the inner handles' counts. -/
theorem partial_transfer_fidelity_witness :
    okRead () [5, 6, 7] = ((Except.ok 2, [9, 8, 7]), ()) ∧
    2 ≤ ([9, 8, 7] : List Nat).length ∧
    okWrite () [5, 6, 7] = (Except.ok 1, ()) ∧
    1 ≤ ([5, 6, 7] : List Nat).length ∧
    (Checker.read InnerCounter.check okRead
        (Checker.new InnerCounter.default ()) [5, 6, 7]
        = some ((Except.ok 2, [9, 8, 7]),
            Checker.new (InnerCounter.check.update InnerCounter.default
              (([9, 8, 7] : List Nat).take 2)) ()) ∧
      Checker.write InnerCounter.check okWrite
        (Checker.new InnerCounter.default ()) [5, 6, 7]
        = some (Except.ok 1,
            Checker.new (InnerCounter.check.update InnerCounter.default
              (([5, 6, 7] : List Nat).take 1)) ())) :=
  ⟨rfl, by decide, rfl, by decide,
    partial_transfer_fidelity InnerCounter.check okRead okWrite
      (Checker.new InnerCounter.default ()) [5, 6, 7] [9, 8, 7] 2 1 () ()
      rfl (by decide) rfl (by decide)⟩

/-- C4: Error transparency with accumulator atomicity: when the inner
handle's read, write, or flush errors, the decorator's corresponding call
returns that identical error unmodified and the held accumulator state
(hence its `output()`) is exactly the one from before the call. -/
theorem error_transparency (chk : Check C O)
    (innerRead : T → List Nat → (Except ε Nat × List Nat) × T)
    (innerWrite : T → List Nat → Except ε Nat × T)
    (innerFlush : T → Except ε Unit × T)
    (ck : Checker C T) (buf buf' : List Nat) (e1 e2 : ε) (e3 : ε)
    (t1 t2 t3 : T)
    (hr : innerRead ck.inner buf = ((Except.error e1, buf'), t1))
    (hw : innerWrite ck.inner buf = (Except.error e2, t2))
    (hf : innerFlush ck.inner = (Except.error e3, t3)) :
    Checker.read chk innerRead ck buf
      = some ((Except.error e1, buf'), Checker.new ck.checker t1) ∧
    Checker.write chk innerWrite ck buf
      = some (Except.error e2, Checker.new ck.checker t2) ∧
    Checker.flush innerFlush ck = (Except.error e3, Checker.new ck.checker t3) := by
  refine ⟨?_, ?_, ?_⟩
  · simp [Checker.read, hr]
  · simp [Checker.write, hw]
  · simp [Checker.flush, hf, Checker.new]

/-- An inner handle whose read, write and flush all fail. -/
def errRead : Unit → List Nat → (Except Unit Nat × List Nat) × Unit :=
  fun s b => ((Except.error (), b), s)

/-- An inner writer that always fails. -/
def errWrite : Unit → List Nat → Except Unit Nat × Unit :=
  fun s _b => (Except.error (), s)

/-- An inner flush that always fails. -/
def errFlush : Unit → Except Unit Unit × Unit :=
  fun s => (Except.error (), s)

/-- C4 witness: over always-failing concrete inner handles, the counter
decorator's read, write and flush return the inner error and leave the
accumulator at its prior value. -/
theorem error_transparency_witness :
    errRead () [1, 2] = ((Except.error (), [1, 2]), ()) ∧
    errWrite () [1, 2] = (Except.error (), ()) ∧
    errFlush () = (Except.error (), ()) ∧
    (Checker.read InnerCounter.check errRead (Checker.new 7 ()) [1, 2]
        = some ((Except.error (), [1, 2]), Checker.new 7 ()) ∧
      Checker.write InnerCounter.check errWrite (Checker.new 7 ()) [1, 2]
        = some (Except.error (), Checker.new 7 ()) ∧
      Checker.flush errFlush (Checker.new 7 ())
        = (Except.error (), Checker.new 7 ())) :=
  ⟨rfl, rfl, rfl,
    error_transparency InnerCounter.check errRead errWrite errFlush
      (Checker.new 7 ()) [1, 2] [1, 2] () () () () () () rfl rfl rfl⟩

/-- C5: Swap preserves history and resets the future: `replace_checker new`
returns the previously held accumulator by value (so its `output()` is the
pre-swap `output()`, the value computed from all bytes confirmed before the
swap), and the resulting decorator holds exactly `new` with the inner handle
unchanged, so its `output()` equals `new`'s own `output()` and all
subsequent behaviour starts from `new`'s state. -/
theorem replace_checker_spec (chk : Check C O) (ck : Checker C T) (new : C) :
    (ck.replace_checker new).1 = ck.checker ∧
    chk.output (ck.replace_checker new).1 = Checker.output chk ck ∧
    (ck.replace_checker new).2 = Checker.new new ck.inner ∧
    Checker.output chk (ck.replace_checker new).2 = chk.output new :=
  ⟨rfl, rfl, rfl, rfl⟩

/-- C6: Decomposition round-trip: rebuilding a decorator from the parts
returned by `into_parts` yields the very same decorator (same accumulator,
hence same `output()`, and same inner handle). -/
theorem into_parts_roundtrip (ck : Checker C T) :
    Checker.new ck.into_parts.1 ck.into_parts.2 = ck :=
  rfl

/-- C7: Flush does not touch the accumulator: `flush` returns exactly the
inner handle's flush outcome (success or error alike) and leaves the held
accumulator, hence the decorator's `output()`, exactly as before. -/
theorem flush_frame (chk : Check C O) (innerFlush : T → Except ε Unit × T)
    (ck : Checker C T) :
    (Checker.flush innerFlush ck).1 = (innerFlush ck.inner).1 ∧
    (Checker.flush innerFlush ck).2.checker = ck.checker ∧
    Checker.output chk (Checker.flush innerFlush ck).2
      = Checker.output chk ck :=
  ⟨rfl, rfl, rfl⟩

/-- C8: `output()` is non-mutating and stable: in state-passing form both
`InnerCounter.output` and the forwarding `Checker.output` return the state
unchanged, and calling `output` twice with no intervening `update` returns
the same value. -/
theorem output_pure (chk : Check C O) (ck : Checker C T) (s : InnerCounter) :
    (InnerCounter.outputS s).2 = s ∧
    (InnerCounter.outputS s).1 = InnerCounter.output s ∧
    (Checker.outputS chk ck).2 = ck ∧
    (Checker.outputS chk ck).1 = chk.output ck.checker ∧
    (Checker.outputS chk (Checker.outputS chk ck).2).1
      = (Checker.outputS chk ck).1 :=
  ⟨rfl, rfl, rfl, rfl, rfl⟩

/-- C9: the decorator's read and write slice the buffer as `buf[..n]` with
the inner handle's count `n`; under the I/O contract `n ≤` buffer length the
slice is in bounds and the call returns (no panic), while a misbehaving
inner handle reporting more bytes than the buffer holds makes the call panic
(`none`) instead of returning. -/
theorem slice_bounds (chk : Check C O)
    (innerRead : T → List Nat → (Except ε Nat × List Nat) × T)
    (innerWrite : T → List Nat → Except ε Nat × T)
    (ck : Checker C T) (buf buf' : List Nat) (n m : Nat) (t t' : T)
    (hr : innerRead ck.inner buf = ((Except.ok n, buf'), t))
    (hn : n ≤ buf'.length)
    (hw : innerWrite ck.inner buf = (Except.ok m, t'))
    (hm : m ≤ buf.length) :
    (Checker.read chk innerRead ck buf).isSome ∧
    (Checker.write chk innerWrite ck buf).isSome ∧
    Checker.read InnerCounter.check badRead
      (Checker.new InnerCounter.default ()) [] = none ∧
    Checker.write InnerCounter.check badWrite
      (Checker.new InnerCounter.default ()) [1, 2] = none := by
  refine ⟨?_, ?_, ?_, ?_⟩
  · simp [Checker.read, hr, sliceTo, hn]
  · simp [Checker.write, hw, sliceTo, hm]
  · simp [Checker.read, badRead, sliceTo]
  · simp [Checker.write, badWrite, sliceTo]

/-- C9 witness: with well-behaved concrete handles the calls return, and the
misbehaving handles (`badRead`, `badWrite`, which report 5 bytes) make the
decorator panic. -/
theorem slice_bounds_witness :
    okRead () [5, 6, 7] = ((Except.ok 2, [9, 8, 7]), ()) ∧
    2 ≤ ([9, 8, 7] : List Nat).length ∧
    okWrite () [5, 6, 7] = (Except.ok 1, ()) ∧
    1 ≤ ([5, 6, 7] : List Nat).length ∧
    ((Checker.read InnerCounter.check okRead
        (Checker.new InnerCounter.default ()) [5, 6, 7]).isSome ∧
      (Checker.write InnerCounter.check okWrite
        (Checker.new InnerCounter.default ()) [5, 6, 7]).isSome ∧
      Checker.read InnerCounter.check badRead
        (Checker.new InnerCounter.default ()) [] = none ∧
      Checker.write InnerCounter.check badWrite
        (Checker.new InnerCounter.default ()) [1, 2] = none) :=
  ⟨rfl, by decide, rfl, by decide,
    slice_bounds InnerCounter.check okRead okWrite
      (Checker.new InnerCounter.default ()) [5, 6, 7] [9, 8, 7] 2 1 () ()
      rfl (by decide) rfl (by decide)⟩

/-- C10: the byte-count total is a fixed-width (`usize`) machine integer:
`update` always computes `(total + len) % 2 ^ 64`, `output` equals the true
byte count under the precondition that it stays below `2 ^ 64`, and at the
boundary the count wraps: one more byte after `2 ^ 64 - 1` yields `0`. -/
theorem counter_wraparound (s : InnerCounter) (buf : List Nat)
    (h : s + buf.length < USIZE) :
    InnerCounter.update s buf = (s + buf.length) % USIZE ∧
    InnerCounter.output (InnerCounter.update s buf) = s + buf.length ∧
    InnerCounter.output (InnerCounter.update (USIZE - 1) [0]) = 0 := by
  refine ⟨rfl, ?_, ?_⟩
  · simp [InnerCounter.update, InnerCounter.output, Nat.mod_eq_of_lt h]
  · have hp := USIZE_pos
    have h1 : USIZE - 1 + 1 = USIZE := by omega
    simp [InnerCounter.update, InnerCounter.output, h1, Nat.mod_self]

/-- C10 witness: a one-byte chunk from the zero state stays below the word
size, and the update reports exactly one byte. -/
theorem counter_wraparound_witness :
    (0 : Nat) + ([42] : List Nat).length < USIZE ∧
    (InnerCounter.update 0 [42] = ((0 : Nat) + ([42] : List Nat).length) % USIZE ∧
      InnerCounter.output (InnerCounter.update 0 [42])
        = (0 : Nat) + ([42] : List Nat).length ∧
      InnerCounter.output (InnerCounter.update (USIZE - 1) [0]) = 0) :=
  ⟨by decide, counter_wraparound 0 [42] (by decide)⟩

end Checkpipe
